import Mathlib

/-!
Verification of the gravity repository fragment: a shallow embedding of the
error classifier (`lib/utils/error.go`), the install dispatch resolver
(`lib/install/fsmspec.go`), the agent reconnect watcher and the command-line
reconstruction utility (`tool/gravity/cli`, supplied unnamed), the OpenEBS
phase rollback (`lib/ops/opsservice/persistentstorage.go`) and the
node-disk-manager configuration (`lib/storage/persistentstorage.go`).

Go strings are Lean `String`s, Go slices are Lean `List`s, Go `error` values
are an inductive `GoError` covering the error shapes the examined functions
discriminate on, and a possibly-nil `error` is `Option GoError`.
-/

namespace Gravity

/-- Model of a Go `error` value, covering the shapes discriminated by the
functions in `lib/utils/error.go`: a generic error carrying a message,
the `context.Canceled` sentinel, `trace.ConnectionProblemError` (whose `Err`
field is either nil or an error), `*etcd.ClusterError`,
`*kubeerrors.StatusError` (status code and status message),
`trace.NotFoundError`, `backoff.PermanentError`, and a `trace.Wrap` layer. -/
inductive GoError where
  | basic (msg : String)
  | contextCanceled
  | connectionProblemNoCause (msg : String)
  | connectionProblemCause (cause : GoError) (msg : String)
  | etcdCluster (msg : String)
  | kubeStatus (code : Nat) (msg : String)
  | notFound (msg : String)
  | permanent (err : GoError)
  | traceWrap (err : GoError)
  deriving DecidableEq, Repr

/-- `Error()` of the modelled error: the generic message for message-carrying
errors, `"context canceled"` for `context.Canceled`, the cause's message for a
connection problem with a cause (`trace.ConnectionProblemError.Error` returns
`Err.Error()` when `Err` is non-nil, its own message otherwise),
`Err.Error()` for `backoff.PermanentError`, and the wrapped error's message
for a trace wrapper. -/
def errMsg : GoError → String
  | .basic m => m
  | .contextCanceled => "context canceled"
  | .connectionProblemNoCause m => m
  | .connectionProblemCause cause _ => errMsg cause
  | .etcdCluster m => m
  | .kubeStatus _ m => m
  | .notFound m => m
  | .permanent e => errMsg e
  | .traceWrap e => errMsg e

/-- `trace.Unwrap`: strips trace wrapping layers, exposing the original
(typed) error; every other error is returned as is. -/
def traceUnwrap : GoError → GoError
  | .traceWrap e => traceUnwrap e
  | .basic m => .basic m
  | .contextCanceled => .contextCanceled
  | .connectionProblemNoCause m => .connectionProblemNoCause m
  | .connectionProblemCause c m => .connectionProblemCause c m
  | .etcdCluster m => .etcdCluster m
  | .kubeStatus c m => .kubeStatus c m
  | .notFound m => .notFound m
  | .permanent e => .permanent e

/-- `trace.UserMessage`: the user-visible message of the unwrapped error. -/
def traceUserMessage (e : GoError) : String :=
  errMsg (traceUnwrap e)

/-- `strings.Contains(s, sub)`. -/
def goContains (s sub : String) : Bool :=
  decide (sub.toList <:+: s.toList)

/-- `trace.IsConnectionProblem`: the unwrapped error is a
`*trace.ConnectionProblemError`. -/
def traceIsConnectionProblem (e : GoError) : Bool :=
  match traceUnwrap e with
  | .connectionProblemNoCause _ => true
  | .connectionProblemCause _ _ => true
  | _ => false

/-- `trace.IsNotFound`: the unwrapped error is a `*trace.NotFoundError`. -/
def traceIsNotFound (e : GoError) : Bool :=
  match traceUnwrap e with
  | .notFound _ => true
  | _ => false

/-- `isEtcdClusterMisconfigured` from `lib/utils/error.go`. -/
def isEtcdClusterMisconfigured (message : String) : Bool :=
  goContains message "etcd cluster is unavailable or misconfigured"

/-- `isEtcdClusterHasNoLeader` from `lib/utils/error.go`. -/
def isEtcdClusterHasNoLeader (message : String) : Bool :=
  goContains message "etcd member" && goContains message "has no leader"

/-- `isEtcdClusterErrorMessage` from `lib/utils/error.go`. -/
def isEtcdClusterErrorMessage (message : String) : Bool :=
  isEtcdClusterMisconfigured message || isEtcdClusterHasNoLeader message

/-- `IsClusterUnavailableError` from `lib/utils/error.go`. -/
def IsClusterUnavailableError (err : GoError) : Bool :=
  isEtcdClusterErrorMessage (traceUserMessage err)

/-- `isEtcdClusterError` from `lib/utils/error.go`: a type check for
`*etcd.ClusterError` on the unwrapped error. -/
def isEtcdClusterError (err : GoError) : Bool :=
  match traceUnwrap err with
  | .etcdCluster _ => true
  | _ => false

/-- `isKubernetesEtcdClusterError` from `lib/utils/error.go`: the unwrapped
error is a Kubernetes `StatusError` with code 500 whose status message is an
etcd cluster error message. -/
def isKubernetesEtcdClusterError (err : GoError) : Bool :=
  match traceUnwrap err with
  | .kubeStatus code m => code == 500 && isEtcdClusterErrorMessage m
  | _ => false

/-- `IsConnectionResetError` from `lib/utils/error.go`. -/
def IsConnectionResetError (err : GoError) : Bool :=
  goContains (errMsg (traceUnwrap err)) "connection reset by peer"

/-- `IsConnectionRefusedError` from `lib/utils/error.go`. -/
def IsConnectionRefusedError (err : GoError) : Bool :=
  goContains (errMsg (traceUnwrap err)) "connection refused"

/-- `IsTransientClusterError` from `lib/utils/error.go`: the Go switch over a
possibly-nil error, embedded as a cascade over `Option GoError`. -/
def IsTransientClusterError : Option GoError → Bool
  | none => false
  | some err =>
    if traceIsConnectionProblem err then true
    else if IsConnectionResetError err then true
    else if IsConnectionRefusedError err then true
    else if IsClusterUnavailableError err || isEtcdClusterError err then true
    else if isKubernetesEtcdClusterError err then true
    else false

/-- `IsContextCancelledError` from `lib/utils/error.go`: the unwrapped error
is `context.Canceled` itself, or a `*trace.ConnectionProblemError` whose
`Err` field is `context.Canceled`. -/
def IsContextCancelledError : Option GoError → Bool
  | none => false
  | some err =>
    match traceUnwrap err with
    | .contextCanceled => true
    | .connectionProblemNoCause _ => false
    | .connectionProblemCause cause _ =>
      match cause with
      | .contextCanceled => true
      | _ => false
    | _ => false

/-- `isPeerDeniedError` from `lib/utils/error.go`. -/
def isPeerDeniedError (message : String) : Bool :=
  goContains message "peer not authorized"

/-- `isLicenseError` from `lib/utils/error.go`. -/
def isLicenseError (message : String) : Bool :=
  goContains message "license allows maximum of"

/-- `isHostAlreadyRegisteredError` from `lib/utils/error.go`. -/
def isHostAlreadyRegisteredError (message : String) : Bool :=
  goContains message "One of existing peers already has hostname" ||
    goContains message "One of existing servers already has hostname"

/-- `ShouldReconnectPeer` from `lib/utils/error.go`: wraps permanent-classified
errors in `backoff.PermanentError`, returns every other error unchanged. -/
def ShouldReconnectPeer (err : GoError) : GoError :=
  if isPeerDeniedError (errMsg err) || isLicenseError (errMsg err) ||
      isHostAlreadyRegisteredError (errMsg err) then
    .permanent err
  else
    err

/-- `exitCodeError` from `lib/utils/error.go`: an exit code with an optional
message and an optional original error. -/
structure exitCodeError where
  code : Int
  message : String
  err : Option GoError
  deriving DecidableEq, Repr

/-- Result type of `exitCodeError.OrigError`, which in Go returns either the
receiver itself (when no original error is stored) or the original error. -/
inductive OrigErrorResult where
  | self (r : exitCodeError)
  | orig (e : GoError)
  deriving DecidableEq, Repr

/-- `NewExitCodeError` from `lib/utils/error.go`: nil for exit code 0,
otherwise an `exitCodeError` holding just the code. -/
def NewExitCodeError (exitCode : Int) : Option exitCodeError :=
  if exitCode == 0 then none
  else some ⟨exitCode, "", none⟩

/-- `WrapExitCodeError` from `lib/utils/error.go`. -/
def WrapExitCodeError (exitCode : Int) (err : GoError) : exitCodeError :=
  ⟨exitCode, "", some err⟩

/-- `exitCodeError.ExitCode`. -/
def exitCodeError.ExitCode (r : exitCodeError) : Int :=
  r.code

/-- `exitCodeError.Error`: the original error's message if stored, else the
stored message if non-empty, else `"exit with code <code>"`. -/
def exitCodeError.Error (r : exitCodeError) : String :=
  match r.err with
  | some e => errMsg e
  | none =>
    if r.message != "" then r.message
    else "exit with code " ++ toString r.code

/-- `exitCodeError.OrigError`: the original error if stored, else the
receiver itself. -/
def exitCodeError.OrigError (r : exitCodeError) : OrigErrorResult :=
  match r.err with
  | some e => .orig e
  | none => .self r

/-- `(*openebs).Rollback` from the `phases` part of
`lib/ops/opsservice/persistentstorage.go`, abstracted over the outcome of the
config-map delete call: `deleteErr` is the delete error after
`rigging.ConvertError` (an external library translating Kubernetes status
errors into trace errors, so a delete of an absent resource yields a
trace not-found error). The phase returns nil when the delete succeeded or
reported not-found, and `trace.Wrap` of the error otherwise. -/
def openebsRollback (deleteErr : Option GoError) : Option GoError :=
  match deleteErr with
  | none => none
  | some err =>
    if traceIsNotFound err then none
    else some (.traceWrap err)

/-- `rpcserver.WatchEvent` as consumed by `watchReconnects`: a peer address
and a possibly-nil error. -/
structure WatchEvent where
  Peer : String
  Error : Option String
  deriving DecidableEq, Repr

/-- The loop body of `watchReconnects` (tool/gravity/cli): consumes events
from the channel, skipping events with a nil error; at the first event
carrying a non-nil error it invokes the cancel function and returns. The
embedding runs the loop over a finite list of events and returns the pair
(number of times the cancel function was invoked, number of events consumed
from the channel). -/
def watchReconnects : List WatchEvent → Nat × Nat
  | [] => (0, 0)
  | event :: rest =>
    match event.Error with
    | none =>
      let p := watchReconnects rest
      (p.1, p.2 + 1)
    | some _ => (1, 1)

/-- `strings.HasPrefix(s, pre)`. -/
def goPrefixOf (pre s : String) : Bool :=
  pre.toList.isPrefixOf s.toList

/-- One character of `strconv.Quote` output: quotes and backslashes are
escaped; other characters of the printable ASCII range (the range all
identifiers and flag values in this development live in) are emitted as
themselves. -/
def goQuoteChar (c : Char) : String :=
  if c = '"' then "\\\""
  else if c = '\\' then "\\\\"
  else String.singleton c

/-- `strconv.Quote` for printable ASCII input: the string wrapped in double
quotes with quotes and backslashes escaped. -/
def goQuote (s : String) : String :=
  "\"" ++ String.join (s.toList.map goQuoteChar) ++ "\""

/-- Modelled from the spec: the phase identifier constants of the
`lib/install/phases` package are not part of the supplied sources. The spec
fixes the route labels "masters", "nodes" (prefix entries sharing the system
executor) and "checks" (an exact entry); the remaining entries of the routing
table are given distinct labels named after their executors. -/
def InitPhase : String := "init"

/-- Modelled from the spec: exact-match label of the checks phase. -/
def ChecksPhase : String := "checks"

/-- Modelled from the spec: exact-match label of the configure phase. -/
def ConfigurePhase : String := "configure"

/-- Modelled from the spec: prefix label of the bootstrap phase family. -/
def BootstrapPhase : String := "bootstrap"

/-- Modelled from the spec: prefix label of the pull phase family. -/
def PullPhase : String := "pull"

/-- Modelled from the spec: prefix label of the masters phase family. -/
def MastersPhase : String := "masters"

/-- Modelled from the spec: prefix label of the nodes phase family. -/
def NodesPhase : String := "nodes"

/-- Modelled from the spec: exact-match label of the wait phase. -/
def WaitPhase : String := "wait"

/-- Modelled from the spec: exact-match label of the health phase. -/
def HealthPhase : String := "health"

/-- Modelled from the spec: exact-match label of the RBAC phase. -/
def RBACPhase : String := "rbac"

/-- Modelled from the spec: exact-match label of the CoreDNS phase. -/
def CorednsPhase : String := "coredns"

/-- Modelled from the spec: exact-match label of the system resources
phase. -/
def SystemResourcesPhase : String := "system-resources"

/-- Modelled from the spec: exact-match label of the user resources phase. -/
def UserResourcesPhase : String := "user-resources"

/-- Modelled from the spec: prefix label of the export phase family. -/
def ExportPhase : String := "export"

/-- Modelled from the spec: prefix label of the runtime phase family. -/
def RuntimePhase : String := "runtime"

/-- Modelled from the spec: prefix label of the app phase family. -/
def AppPhase : String := "app"

/-- Modelled from the spec: exact-match label of the connect-installer
phase. -/
def ConnectInstallerPhase : String := "connect-installer"

/-- Modelled from the spec: prefix label of the election phase family. -/
def EnableElectionPhase : String := "election"

/-- Modelled from the spec: prefix label of the overlay network phase. -/
def InstallOverlayPhase : String := "installoverlay"

/-- Modelled from the spec: prefix label of the gravity resources phase. -/
def GravityResourcesPhase : String := "gravity-resources"

/-- The executor factory selected by `FSMSpec` (`lib/install/fsmspec.go`).
The concrete executors are external collaborators; the resolver only routes
to one of these factories. Both the masters and the nodes phase families
route to the single `systemExec` factory (`phases.NewSystem`). -/
inductive ExecutorFactory where
  | initExec
  | checksExec
  | configureExec
  | bootstrapExec
  | pullExec
  | systemExec
  | waitExec
  | healthExec
  | rbacExec
  | corednsExec
  | systemResourcesExec
  | userResourcesExec
  | exportExec
  | appExec
  | connectInstallerExec
  | enableElectionExec
  | installOverlayExec
  | gravityResourcesExec
  deriving DecidableEq, Repr

/-- Failure of executor resolution: a `trace.BadParameter` for an unknown
phase, or the wrapped error of a failed client construction. -/
inductive ResolveErr where
  | badParameter (msg : String)
  | wrapped (e : GoError)
  deriving DecidableEq, Repr

/-- The switch of `FSMSpec` from `lib/install/fsmspec.go`, case for case in
source order. `kubeClient` abstracts the outcome of `getKubeClient` and
`clusterClient` the outcome of `config.LocalClusterClient()` plus
`gravity.New` (external collaborators); the cases that need a client
propagate its wrapped error. The default case is
`trace.BadParameter("unknown phase %q", id)`. -/
def FSMSpec (kubeClient clusterClient : Except GoError Unit) (id : String) :
    Except ResolveErr ExecutorFactory :=
  if goPrefixOf InitPhase id then .ok .initExec
  else if id == ChecksPhase then .ok .checksExec
  else if id == ConfigurePhase then .ok .configureExec
  else if goPrefixOf BootstrapPhase id then .ok .bootstrapExec
  else if goPrefixOf PullPhase id then .ok .pullExec
  else if goPrefixOf MastersPhase id || goPrefixOf NodesPhase id then .ok .systemExec
  else if id == WaitPhase then
    match kubeClient with
    | .error e => .error (.wrapped e)
    | .ok _ => .ok .waitExec
  else if id == HealthPhase then .ok .healthExec
  else if id == RBACPhase then
    match kubeClient with
    | .error e => .error (.wrapped e)
    | .ok _ => .ok .rbacExec
  else if id == CorednsPhase then
    match kubeClient with
    | .error e => .error (.wrapped e)
    | .ok _ => .ok .corednsExec
  else if id == SystemResourcesPhase then
    match kubeClient with
    | .error e => .error (.wrapped e)
    | .ok _ => .ok .systemResourcesExec
  else if id == UserResourcesPhase then .ok .userResourcesExec
  else if goPrefixOf ExportPhase id then .ok .exportExec
  else if goPrefixOf RuntimePhase id || goPrefixOf AppPhase id then .ok .appExec
  else if id == ConnectInstallerPhase then .ok .connectInstallerExec
  else if goPrefixOf EnableElectionPhase id then .ok .enableElectionExec
  else if goPrefixOf InstallOverlayPhase id then .ok .installOverlayExec
  else if goPrefixOf GravityResourcesPhase id then
    match clusterClient with
    | .error e => .error (.wrapped e)
    | .ok _ => .ok .gravityResourcesExec
  else .error (.badParameter ("unknown phase " ++ goQuote id))

/-- A phase identifier matches some entry of the `FSMSpec` routing table:
the disjunction of every non-default case guard of the switch. -/
def matchesInstallTable (id : String) : Bool :=
  goPrefixOf InitPhase id || id == ChecksPhase || id == ConfigurePhase ||
    goPrefixOf BootstrapPhase id || goPrefixOf PullPhase id ||
    goPrefixOf MastersPhase id || goPrefixOf NodesPhase id ||
    id == WaitPhase || id == HealthPhase || id == RBACPhase ||
    id == CorednsPhase || id == SystemResourcesPhase ||
    id == UserResourcesPhase || goPrefixOf ExportPhase id ||
    goPrefixOf RuntimePhase id || goPrefixOf AppPhase id ||
    id == ConnectInstallerPhase || goPrefixOf EnableElectionPhase id ||
    goPrefixOf InstallOverlayPhase id || goPrefixOf GravityResourcesPhase id

/-- The `flag` struct of tool/gravity/cli: a flag name and value to add to a
reconstructed command line. -/
structure flag where
  name : String
  value : String
  deriving DecidableEq, Repr

/-- One element of a kingpin `ParseContext` as consumed by
`updateCommandWithFlags`: a command token (skipped by the switch), a
positional argument with its value, or a flag with its name, whether its
value implements `boolFlag`, and its value. -/
inductive ParseElement where
  | cmdEl (name : String)
  | argEl (value : String)
  | flagEl (name : String) (isBool : Bool) (value : String)
  deriving DecidableEq, Repr

/-- A kingpin `ParseContext` as consumed by `updateCommandWithFlags`: the
full name of the selected command and the parsed elements in order. -/
structure ParseContext where
  selectedCommand : String
  elements : List ParseElement
  deriving DecidableEq, Repr

/-- The inner removal loop of `updateCommandWithFlags`:

    for i, flag := range flagsToAdd {
      if model.Name == flag.name {
        flagsToAdd = append(flagsToAdd[:i], flagsToAdd[i+1:]...)
      }
    }

Go evaluates the range expression once, so the loop iterates over the
original slice header (the original length `n` and backing array) while
`append` with sufficient capacity shifts the elements of that same backing
array in place. The embedding tracks the backing array `A` (always `n`
elements) and the current slice length `l`; iteration `i` reads `A[i]`.
A removal at index `i` is legal only when `i + 1 ≤ l` (otherwise the slice
expression `flagsToAdd[i+1:]` is out of range and the Go program panics,
embedded as `none`); it shifts `A[i+1..l-1]` down one position, leaving
positions `l-1..n-1` unchanged, and decrements `l`. -/
def removeMatchingAux (name : String) :
    Nat → Nat → List flag → Nat → Option (List flag × Nat)
  | 0, _, A, l => some (A, l)
  | fuel + 1, i, A, l =>
    let fl := A.getD i ⟨"", ""⟩
    if fl.name == name then
      if i + 1 ≤ l then
        removeMatchingAux name fuel (i + 1)
          (A.take i ++ (A.drop (i + 1)).take (l - i - 1) ++ A.drop (l - 1))
          (l - 1)
      else none
    else removeMatchingAux name fuel (i + 1) A l

/-- The removal loop run over a whole flag list: the final value of the
`flagsToAdd` variable (its first `l` backing elements), or `none` when the
loop panics. -/
def removeMatching (name : String) (fs : List flag) : Option (List flag) :=
  (removeMatchingAux name fs.length 0 fs fs.length).map fun p => p.1.take p.2

/-- The element loop of `updateCommandWithFlags`: walks the parse context
elements in order, quoting each positional argument, re-emitting each flag
(bare when its value implements `boolFlag`, name plus quoted value
otherwise) and running the removal loop on `flagsToAdd` for each flag
element. Returns the accumulated argument strings and the remaining flags to
add, or `none` when a removal loop panics. -/
def processElements : List ParseElement → List flag → Option (List String × List flag)
  | [], fs => some ([], fs)
  | .cmdEl _ :: rest, fs => processElements rest fs
  | .argEl v :: rest, fs =>
    (processElements rest fs).map fun p => (goQuote v :: p.1, p.2)
  | .flagEl name isBool v :: rest, fs =>
    match removeMatching name fs with
    | none => none
    | some fs' =>
      (processElements rest fs').map fun p =>
        ((if isBool then ["--" ++ name] else ["--" ++ name, goQuote v]) ++ p.1, p.2)

/-- `updateCommandWithFlags` from tool/gravity/cli, over an already parsed
command line (the source first runs `parser.ParseArgs` and propagates its
error; the embedding starts from the resulting `ParseContext`): the selected
command followed by the re-emitted original elements, followed by every flag
left in `flagsToAdd` rendered as its name and quoted value. -/
def updateCommandWithFlags (ctx : ParseContext) (flagsToAdd : List flag) :
    Option (List String) :=
  (processElements ctx.elements flagsToAdd).map fun p =>
    ctx.selectedCommand ::
      (p.1 ++ p.2.flatMap fun f => ["--" ++ f.name, goQuote f.value])

/-- The rendering of one parse context element inside the output command
line, for stating properties of `processElements`. -/
def renderElement : ParseElement → List String
  | .cmdEl _ => []
  | .argEl v => [goQuote v]
  | .flagEl name isBool v =>
    if isBool then ["--" ++ name] else ["--" ++ name, goQuote v]

/-- Split of a character list at every occurrence of a separator
character. -/
def splitOnChar (sep : Char) : List Char → List (List Char)
  | [] => [[]]
  | c :: rest =>
    match splitOnChar sep rest with
    | [] => [[]]
    | h :: t => if c = sep then [] :: h :: t else (c :: h) :: t

/-- `strings.Split(s, ",")`: the node-disk-manager configuration only ever
splits on the single-character separator ",". An input without any comma
yields the one-element list holding the input (in particular `[""]` for the
empty string, as in Go). -/
def goSplitComma (s : String) : List String :=
  (splitOnChar ',' s.toList).map List.asString

/-- `strings.Join(l, sep)`. -/
def goJoin (l : List String) (sep : String) : String :=
  String.intercalate sep l

/-- `NDMProbe` from `lib/storage/persistentstorage.go`. -/
structure NDMProbe where
  Name : String
  Key : String
  State : Bool
  deriving DecidableEq, Repr

/-- `NDMFilter` from `lib/storage/persistentstorage.go`. -/
structure NDMFilter where
  Name : String
  Key : String
  State : Bool
  Include : String
  Exclude : String
  deriving DecidableEq, Repr

/-- `NDMConfig` from `lib/storage/persistentstorage.go`. -/
structure NDMConfig where
  ProbeConfigs : List NDMProbe
  FilterConfigs : List NDMFilter
  deriving DecidableEq, Repr

/-- The read view of `(*NDMConfig).getFilter`: the first filter whose key
matches, or an empty filter. In the source the function ranges over
`c.FilterConfigs` with `for _, filter := range` and returns `&filter` — the
address of the loop variable, which holds a copy of the slice element — or
the address of a fresh empty `NDMFilter`. Either way the returned pointer
never aliases the `FilterConfigs` slice, so reads through it see the copied
element and writes through it never reach the configuration. -/
def NDMConfig.getFilter (c : NDMConfig) (key : String) : NDMFilter :=
  match c.FilterConfigs.find? (fun f => f.Key == key) with
  | some f => f
  | none => ⟨"", "", false, "", ""⟩

/-- `(*NDMConfig).SetMountExcludes` assigns
`strings.Join(excludes, ",")` through the pointer returned by `getFilter`.
Because that pointer addresses a copy of the slice element (the `range` loop
variable), the assignment mutates only the copy and the configuration is
left unchanged; the embedding returns the unchanged configuration together
with the mutated copy the write landed in. -/
def NDMConfig.SetMountExcludes (c : NDMConfig) (excludes : List String) :
    NDMConfig × NDMFilter :=
  let filter := c.getFilter "os-disk-exclude-filter"
  (c, ⟨filter.Name, filter.Key, filter.State, filter.Include, goJoin excludes ","⟩)

/-- `(*NDMConfig).SetVendorExcludes`: same dangling-pointer write as
`SetMountExcludes`, on the "vendor-filter" entry. -/
def NDMConfig.SetVendorExcludes (c : NDMConfig) (excludes : List String) :
    NDMConfig × NDMFilter :=
  let filter := c.getFilter "vendor-filter"
  (c, ⟨filter.Name, filter.Key, filter.State, filter.Include, goJoin excludes ","⟩)

/-- `(*NDMConfig).SetVendorIncludes`: same dangling-pointer write as
`SetMountExcludes`, on the include field of the "vendor-filter" entry. -/
def NDMConfig.SetVendorIncludes (c : NDMConfig) (includes : List String) :
    NDMConfig × NDMFilter :=
  let filter := c.getFilter "vendor-filter"
  (c, ⟨filter.Name, filter.Key, filter.State, goJoin includes ",", filter.Exclude⟩)

/-- `(*NDMConfig).SetDeviceExcludes`: same dangling-pointer write as
`SetMountExcludes`, on the "path-filter" entry. -/
def NDMConfig.SetDeviceExcludes (c : NDMConfig) (excludes : List String) :
    NDMConfig × NDMFilter :=
  let filter := c.getFilter "path-filter"
  (c, ⟨filter.Name, filter.Key, filter.State, filter.Include, goJoin excludes ","⟩)

/-- `(*NDMConfig).SetDeviceIncludes`: same dangling-pointer write as
`SetMountExcludes`, on the include field of the "path-filter" entry. -/
def NDMConfig.SetDeviceIncludes (c : NDMConfig) (includes : List String) :
    NDMConfig × NDMFilter :=
  let filter := c.getFilter "path-filter"
  (c, ⟨filter.Name, filter.Key, filter.State, goJoin includes ",", filter.Exclude⟩)

/-- `(*NDMConfig).MountExcludes`. -/
def NDMConfig.MountExcludes (c : NDMConfig) : List String :=
  goSplitComma (c.getFilter "os-disk-exclude-filter").Exclude

/-- `(*NDMConfig).VendorExcludes`. -/
def NDMConfig.VendorExcludes (c : NDMConfig) : List String :=
  goSplitComma (c.getFilter "vendor-filter").Exclude

/-- `(*NDMConfig).VendorIncludes`. -/
def NDMConfig.VendorIncludes (c : NDMConfig) : List String :=
  goSplitComma (c.getFilter "vendor-filter").Include

/-- `(*NDMConfig).DeviceExcludes`. -/
def NDMConfig.DeviceExcludes (c : NDMConfig) : List String :=
  goSplitComma (c.getFilter "path-filter").Exclude

/-- `(*NDMConfig).DeviceIncludes`. -/
def NDMConfig.DeviceIncludes (c : NDMConfig) : List String :=
  goSplitComma (c.getFilter "path-filter").Include

/-- `defaultMountExcludes` from `lib/storage/persistentstorage.go`. -/
def defaultMountExcludes : List String := ["/", "/etc/hosts", "/boot"]

/-- `defaultVendorExcludes` from `lib/storage/persistentstorage.go`. -/
def defaultVendorExcludes : List String := ["CLOUDBYT", "OpenEBS"]

/-- `defaultDeviceExcludes` from `lib/storage/persistentstorage.go`. -/
def defaultDeviceExcludes : List String :=
  ["loop", "/dev/fd0", "/dev/sr0", "/dev/ram", "/dev/dm-", "/dev/md"]

/-- `DefaultNDMConfig` from `lib/storage/persistentstorage.go`. -/
def DefaultNDMConfig : NDMConfig :=
  { ProbeConfigs := [
      ⟨"udev probe", "udev-probe", true⟩,
      ⟨"searchest probe", "searchest-probe", false⟩,
      ⟨"smart probe", "smart-probe", true⟩]
    FilterConfigs := [
      ⟨"os disk exclude filter", "os-disk-exclude-filter", true, "",
        goJoin defaultMountExcludes ","⟩,
      ⟨"vendor filter", "vendor-filter", true, "",
        goJoin defaultVendorExcludes ","⟩,
      ⟨"path filter", "path-filter", true, "",
        goJoin defaultDeviceExcludes ","⟩] }

/-- The read view of a `storage.PersistentStorage` resource: the five filter
lists its getters expose (`GetMountExcludes` etc. of `PersistentStorageV1`). -/
structure PersistentStorageData where
  MountExcludes : List String
  VendorIncludes : List String
  VendorExcludes : List String
  DeviceIncludes : List String
  DeviceExcludes : List String
  deriving DecidableEq, Repr

/-- `(*NDMConfig).Apply` from `lib/storage/persistentstorage.go`: invokes the
five setters with the resource's filter lists. Each setter write lands in a
copy (see `NDMConfig.SetMountExcludes`), so the resulting configuration is
the input configuration. -/
def NDMConfig.Apply (c : NDMConfig) (ps : PersistentStorageData) : NDMConfig :=
  (((((c.SetMountExcludes ps.MountExcludes).1.SetVendorIncludes
      ps.VendorIncludes).1.SetVendorExcludes
      ps.VendorExcludes).1.SetDeviceIncludes
      ps.DeviceIncludes).1.SetDeviceExcludes ps.DeviceExcludes).1

/-! ## Theorems -/

/-- Claim C1: for every finite stream of watch events, `watchReconnects`
invokes the cancel function exactly once when some event carries a non-nil
error and never otherwise, consumes exactly the nil-error prefix of the
stream plus the first error event when one exists, and thus never cancels
before the first error event and consumes nothing after it. -/
theorem watchReconnects_cancel_once : ∀ evs : List WatchEvent,
    (watchReconnects evs).1 = (if evs.any fun e => e.Error.isSome then 1 else 0) ∧
    (watchReconnects evs).2 =
      (evs.takeWhile fun e => e.Error.isNone).length +
        (if evs.any fun e => e.Error.isSome then 1 else 0) := by
  intro evs
  induction evs with
  | nil => simp [watchReconnects]
  | cons e rest ih =>
    cases he : e.Error with
    | none =>
      simp only [watchReconnects, he, List.any_cons, List.takeWhile_cons,
        Option.isSome_none, Option.isNone_none, Bool.false_or, if_true]
      refine ⟨ih.1, ?_⟩
      rw [ih.2]
      simp only [List.length_cons]
      omega
    | some msg =>
      simp [watchReconnects, he, List.any_cons, List.takeWhile_cons]

/-- Claim C3: `ShouldReconnectPeer` returns a `backoff.PermanentError`
wrapping the error exactly when the error's message contains
"peer not authorized", the license-limit message, or one of the two
hostname-already-registered messages; every other error is returned
unchanged. -/
theorem shouldReconnectPeer_permanent_gate : ∀ err : GoError,
    (ShouldReconnectPeer err = GoError.permanent err ∧
      (goContains (errMsg err) "peer not authorized" = true ∨
       goContains (errMsg err) "license allows maximum of" = true ∨
       goContains (errMsg err) "One of existing peers already has hostname" = true ∨
       goContains (errMsg err) "One of existing servers already has hostname" = true)) ∨
    (ShouldReconnectPeer err = err ∧
      ¬ (goContains (errMsg err) "peer not authorized" = true ∨
         goContains (errMsg err) "license allows maximum of" = true ∨
         goContains (errMsg err) "One of existing peers already has hostname" = true ∨
         goContains (errMsg err) "One of existing servers already has hostname" = true)) := by
  intro err
  by_cases h : (isPeerDeniedError (errMsg err) || isLicenseError (errMsg err) ||
      isHostAlreadyRegisteredError (errMsg err)) = true
  · left
    refine ⟨by simp [ShouldReconnectPeer, h], ?_⟩
    revert h
    simp only [isPeerDeniedError, isLicenseError, isHostAlreadyRegisteredError,
      Bool.or_eq_true]
    tauto
  · right
    refine ⟨by simp [ShouldReconnectPeer, h], ?_⟩
    revert h
    simp only [isPeerDeniedError, isLicenseError, isHostAlreadyRegisteredError,
      Bool.or_eq_true]
    tauto

/-- Claim C6: the OpenEBS phase rollback returns nil when the config-map
delete succeeded or reported that the resource does not exist, and returns
the wrapped error for every other delete failure. -/
theorem openebsRollback_notFound_ok : ∀ res : Option GoError,
    (res = none → openebsRollback res = none) ∧
    (∀ err, res = some err → traceIsNotFound err = true →
      openebsRollback res = none) ∧
    (∀ err, res = some err → traceIsNotFound err = false →
      openebsRollback res = some (.traceWrap err)) := by
  intro res
  refine ⟨?_, ?_, ?_⟩
  · rintro rfl; rfl
  · rintro err rfl h; simp [openebsRollback, h]
  · rintro err rfl h; simp [openebsRollback, h]

/-- Witness for C6: a not-found delete outcome rolls back successfully, any
other failure is returned wrapped. -/
theorem openebsRollback_notFound_ok_witness :
    openebsRollback (some (.notFound "configmaps ndm-config not found")) = none ∧
    openebsRollback (some (.basic "connection refused")) =
      some (.traceWrap (.basic "connection refused")) :=
  ⟨(openebsRollback_notFound_ok _).2.1 _ rfl (by decide),
   (openebsRollback_notFound_ok _).2.2 _ rfl (by decide)⟩

/-- Claim C7: `IsContextCancelledError` is true exactly when the unwrapped
error is `context.Canceled` itself or a connection-problem error whose
underlying cause is `context.Canceled`; nil and every other error classify
as not cancelled. -/
theorem isContextCancelledError_iff :
    IsContextCancelledError none = false ∧
    (IsContextCancelledError (some .contextCanceled) = true) ∧
    ∀ err : GoError, (IsContextCancelledError (some err) = true ↔
      (traceUnwrap err = .contextCanceled ∨
       ∃ m, traceUnwrap err = .connectionProblemCause .contextCanceled m)) := by
  refine ⟨rfl, rfl, ?_⟩
  intro err
  cases hu : traceUnwrap err with
  | connectionProblemCause cause m =>
    cases cause <;> simp [IsContextCancelledError, hu]
  | _ => simp [IsContextCancelledError, hu]

/-- Claim C9: `WrapExitCodeError` preserves the exit code, the original
error's message and the original error itself, and `NewExitCodeError 0` is
nil. -/
theorem wrapExitCodeError_preserves :
    (∀ (c : Int) (err : GoError),
      (WrapExitCodeError c err).ExitCode = c ∧
      (WrapExitCodeError c err).Error = errMsg err ∧
      (WrapExitCodeError c err).OrigError = .orig err) ∧
    NewExitCodeError 0 = none := by
  exact ⟨fun c err => ⟨rfl, rfl, rfl⟩, rfl⟩

theorem traceIsConnectionProblem_iff (err : GoError) :
    traceIsConnectionProblem err = true ↔
      (∃ m, traceUnwrap err = .connectionProblemNoCause m) ∨
      (∃ c m, traceUnwrap err = .connectionProblemCause c m) := by
  cases hu : traceUnwrap err <;> simp [traceIsConnectionProblem, hu]

theorem isEtcdClusterError_iff (err : GoError) :
    isEtcdClusterError err = true ↔ ∃ m, traceUnwrap err = .etcdCluster m := by
  cases hu : traceUnwrap err <;> simp [isEtcdClusterError, hu]

theorem isKubernetesEtcdClusterError_iff (err : GoError) :
    isKubernetesEtcdClusterError err = true ↔
      ∃ m, traceUnwrap err = .kubeStatus 500 m ∧
        isEtcdClusterErrorMessage m = true := by
  cases hu : traceUnwrap err <;>
    simp [isKubernetesEtcdClusterError, hu, Bool.and_eq_true]
  constructor
  · rintro ⟨h1, h2⟩
    exact ⟨_, ⟨h1, rfl⟩, h2⟩
  · rintro ⟨m, ⟨h1, rfl⟩, h2⟩
    exact ⟨h1, h2⟩

theorem isTransientClusterError_or (err : GoError) :
    IsTransientClusterError (some err) =
      (traceIsConnectionProblem err || IsConnectionResetError err ||
        IsConnectionRefusedError err ||
        (IsClusterUnavailableError err || isEtcdClusterError err) ||
        isKubernetesEtcdClusterError err) := by
  cases h1 : traceIsConnectionProblem err <;>
    cases h2 : IsConnectionResetError err <;>
      cases h3 : IsConnectionRefusedError err <;>
        cases h4 : IsClusterUnavailableError err || isEtcdClusterError err <;>
          cases h5 : isKubernetesEtcdClusterError err <;>
            simp [IsTransientClusterError, h1, h2, h3, h4, h5]

/-- Claim C4: `IsTransientClusterError` is true exactly for connection
problems, connection-reset and connection-refused errors, and errors carrying
the etcd unavailable-or-misconfigured or member-has-no-leader message —
directly in the user message, as an `*etcd.ClusterError`, or inside a
Kubernetes status error with code 500; nil and every error matching none of
these categories yield false. -/
theorem isTransientClusterError_iff :
    IsTransientClusterError none = false ∧
    ∀ err : GoError, (IsTransientClusterError (some err) = true ↔
      ((∃ m, traceUnwrap err = .connectionProblemNoCause m) ∨
       (∃ c m, traceUnwrap err = .connectionProblemCause c m) ∨
       goContains (errMsg (traceUnwrap err)) "connection reset by peer" = true ∨
       goContains (errMsg (traceUnwrap err)) "connection refused" = true ∨
       isEtcdClusterErrorMessage (traceUserMessage err) = true ∨
       (∃ m, traceUnwrap err = .etcdCluster m) ∨
       (∃ m, traceUnwrap err = .kubeStatus 500 m ∧
         isEtcdClusterErrorMessage m = true))) := by
  refine ⟨rfl, ?_⟩
  intro err
  rw [isTransientClusterError_or]
  simp only [Bool.or_eq_true, traceIsConnectionProblem_iff,
    isEtcdClusterError_iff, isKubernetesEtcdClusterError_iff,
    IsConnectionResetError, IsConnectionRefusedError, IsClusterUnavailableError,
    or_assoc]

theorem isPrefixOf_total : ∀ (l a b : List Char),
    a.isPrefixOf l = true → b.isPrefixOf l = true →
    a.isPrefixOf b = true ∨ b.isPrefixOf a = true := by
  intro l
  induction l with
  | nil =>
    intro a b ha _
    cases a with
    | nil => exact Or.inl (by cases b <;> simp [List.isPrefixOf])
    | cons x xs => simp [List.isPrefixOf] at ha
  | cons c cs ih =>
    intro a b ha hb
    cases a with
    | nil => exact Or.inl (by cases b <;> simp [List.isPrefixOf])
    | cons x xs =>
      cases b with
      | nil => exact Or.inr (by simp [List.isPrefixOf])
      | cons y ys =>
        simp only [List.isPrefixOf, Bool.and_eq_true, beq_iff_eq] at ha hb ⊢
        obtain ⟨hx, ha'⟩ := ha
        obtain ⟨hy, hb'⟩ := hb
        subst hx
        subst hy
        rcases ih xs ys ha' hb' with h | h
        · exact Or.inl ⟨rfl, h⟩
        · exact Or.inr ⟨rfl, h⟩

theorem goPrefixOf_total (p q id : String) (hp : goPrefixOf p id = true)
    (hq : goPrefixOf q id = true) :
    goPrefixOf p q = true ∨ goPrefixOf q p = true :=
  isPrefixOf_total id.toList p.toList q.toList hp hq

theorem goPrefixOf_false_of_incomparable (p q id : String)
    (h : goPrefixOf q id = true) (h1 : goPrefixOf p q = false)
    (h2 : goPrefixOf q p = false) : goPrefixOf p id = false := by
  cases hg : goPrefixOf p id
  · rfl
  · rcases goPrefixOf_total p q id hg h with hc | hc
    · rw [h1] at hc
      exact absurd hc (by simp)
    · rw [h2] at hc
      exact absurd hc (by simp)

/-- Claim C2: `FSMSpec` resolution is first-match over the ordered table:
every phase identifier with prefix "masters" or prefix "nodes" resolves to
the single system executor factory, the exact identifier "checks" resolves
to the checks executor, and every identifier matching no table entry yields
a `BadParameter` error naming the unknown phase — for any outcome of the
client constructions. -/
theorem fsmspec_routing : ∀ kc cc : Except GoError Unit,
    (∀ id : String,
      goPrefixOf MastersPhase id = true ∨ goPrefixOf NodesPhase id = true →
      FSMSpec kc cc id = .ok .systemExec) ∧
    FSMSpec kc cc ChecksPhase = .ok .checksExec ∧
    (∀ id : String, matchesInstallTable id = false →
      FSMSpec kc cc id = .error (.badParameter ("unknown phase " ++ goQuote id))) := by
  intro kc cc
  refine ⟨?_, by rfl, ?_⟩
  · intro id h
    have hor : (goPrefixOf MastersPhase id || goPrefixOf NodesPhase id) = true := by
      rcases h with h | h <;> simp [h]
    have g1 : goPrefixOf InitPhase id = false := by
      rcases h with h | h
      · exact goPrefixOf_false_of_incomparable _ _ _ h (by decide) (by decide)
      · exact goPrefixOf_false_of_incomparable _ _ _ h (by decide) (by decide)
    have g4 : goPrefixOf BootstrapPhase id = false := by
      rcases h with h | h
      · exact goPrefixOf_false_of_incomparable _ _ _ h (by decide) (by decide)
      · exact goPrefixOf_false_of_incomparable _ _ _ h (by decide) (by decide)
    have g5 : goPrefixOf PullPhase id = false := by
      rcases h with h | h
      · exact goPrefixOf_false_of_incomparable _ _ _ h (by decide) (by decide)
      · exact goPrefixOf_false_of_incomparable _ _ _ h (by decide) (by decide)
    have g2 : (id == ChecksPhase) = false := by
      cases hq : id == ChecksPhase
      · rfl
      · have hid : id = ChecksPhase := by simpa using hq
        subst hid
        rcases h with h | h <;> exact absurd h (by decide)
    have g3 : (id == ConfigurePhase) = false := by
      cases hq : id == ConfigurePhase
      · rfl
      · have hid : id = ConfigurePhase := by simpa using hq
        subst hid
        rcases h with h | h <;> exact absurd h (by decide)
    simp [FSMSpec, g1, g2, g3, g4, g5, hor]
  · intro id hm
    simp only [matchesInstallTable, Bool.or_eq_false_iff] at hm
    obtain ⟨⟨⟨⟨⟨⟨⟨⟨⟨⟨⟨⟨⟨⟨⟨⟨⟨⟨⟨h1, h2⟩, h3⟩, h4⟩, h5⟩, h6⟩, h7⟩, h8⟩,
      h9⟩, h10⟩, h11⟩, h12⟩, h13⟩, h14⟩, h15⟩, h16⟩, h17⟩, h18⟩, h19⟩, h20⟩ := hm
    simp [FSMSpec, h1, h2, h3, h4, h5, h6, h7, h8, h9, h10, h11, h12, h13,
      h14, h15, h16, h17, h18, h19, h20]

/-- Witness for C2: the routing of the spec's example identifiers —
"masters/1" and "nodes/1" both resolve to the system executor factory,
"checks" resolves to the checks executor, and "bogus/1" yields a
`BadParameter` error naming the phase. -/
theorem fsmspec_routing_witness :
    FSMSpec (.ok ()) (.ok ()) "masters/1" = .ok .systemExec ∧
    FSMSpec (.ok ()) (.ok ()) "nodes/1" = .ok .systemExec ∧
    FSMSpec (.ok ()) (.ok ()) "checks" = .ok .checksExec ∧
    FSMSpec (.ok ()) (.ok ()) "bogus/1" =
      .error (.badParameter ("unknown phase " ++ goQuote "bogus/1")) :=
  ⟨(fsmspec_routing (.ok ()) (.ok ())).1 "masters/1" (Or.inl (by decide)),
   (fsmspec_routing (.ok ()) (.ok ())).1 "nodes/1" (Or.inr (by decide)),
   (fsmspec_routing (.ok ()) (.ok ())).2.1,
   (fsmspec_routing (.ok ()) (.ok ())).2.2 "bogus/1" (by decide)⟩

theorem processElements_args : ∀ (els : List ParseElement) (fs : List flag)
    (args : List String) (rest : List flag),
    processElements els fs = some (args, rest) →
    args = els.flatMap renderElement := by
  intro els
  induction els with
  | nil =>
    intro fs args rest h
    simp only [processElements, Option.some.injEq, Prod.mk.injEq] at h
    simp [← h.1]
  | cons el tail ih =>
    intro fs args rest h
    cases el with
    | cmdEl name =>
      simp only [processElements] at h
      simp [renderElement, ih fs args rest h]
    | argEl v =>
      simp only [processElements, Option.map_eq_some'] at h
      obtain ⟨⟨args', rest'⟩, hp, heq⟩ := h
      obtain ⟨h1, h2⟩ := Prod.mk.injEq .. ▸ heq
      simp [← h1, renderElement, ih fs args' rest' hp]
    | flagEl name isBool v =>
      simp only [processElements] at h
      cases hrm : removeMatching name fs with
      | none => rw [hrm] at h; exact absurd h (by simp)
      | some fs' =>
        rw [hrm] at h
        simp only [Option.map_eq_some'] at h
        obtain ⟨⟨args', rest'⟩, hp, heq⟩ := h
        obtain ⟨h1, h2⟩ := Prod.mk.injEq .. ▸ heq
        simp [← h1, renderElement, ih fs' args' rest' hp]

/-- The parse context of the spec example command line
`["install", "--token", "abc"]`: the `install` command selected, with the
string flag `--token` holding `"abc"` (`--insecure` does not occur on the
line, so kingpin produces no element for it). -/
def exInstallCtx : ParseContext :=
  ⟨"install", [.cmdEl "install", .flagEl "token" false "abc"]⟩

/-- Counterexample for claim C5: on the spec's own example — original line
`["install", "--token", "abc"]` plus the boolean flag
`{name: "insecure", value: "true"}` to add — `updateCommandWithFlags` emits
the added flag with its quoted value (`"--insecure" "\"true\""`), not bare,
so the output differs from the claimed
`["install", "--token", "\"abc\"", "--insecure"]`. -/
theorem updateCommandWithFlags_bool_added_counterexample :
    updateCommandWithFlags exInstallCtx [⟨"insecure", "true"⟩] =
      some ["install", "--token", "\"abc\"", "--insecure", "\"true\""] ∧
    updateCommandWithFlags exInstallCtx [⟨"insecure", "true"⟩] ≠
      some ["install", "--token", "\"abc\"", "--insecure"] := by
  constructor
  · rfl
  · decide

/-- Claim C5 (amended): the boolean/non-boolean distinction applies only to
flags re-emitted from the original command line; every flag appended from
`flagsToAdd` — boolean or not — is emitted as its name followed by its
quoted value. Whenever the element loop completes, the output is the
selected command, the original elements re-rendered in order (positionals
quoted, original boolean flags bare, other original flags name plus quoted
value), then each remaining added flag as name plus quoted value. -/
theorem updateCommandWithFlags_appended_quoted :
    ∀ (ctx : ParseContext) (fs : List flag) (args : List String) (rest : List flag),
    processElements ctx.elements fs = some (args, rest) →
    updateCommandWithFlags ctx fs =
      some (ctx.selectedCommand ::
        (ctx.elements.flatMap renderElement ++
          rest.flatMap fun f => ["--" ++ f.name, goQuote f.value])) := by
  intro ctx fs args rest h
  simp [updateCommandWithFlags, h, processElements_args ctx.elements fs args rest h]

/-- Witness for the amended C5: at the spec's example input the appended
boolean flag is rendered as `--insecure "true"`. -/
theorem updateCommandWithFlags_appended_quoted_witness :
    updateCommandWithFlags exInstallCtx [⟨"insecure", "true"⟩] =
      some (exInstallCtx.selectedCommand ::
        (exInstallCtx.elements.flatMap renderElement ++
          [⟨"insecure", "true"⟩].flatMap fun f : flag =>
            ["--" ++ f.name, goQuote f.value])) :=
  updateCommandWithFlags_appended_quoted exInstallCtx [⟨"insecure", "true"⟩]
    ["--token", "\"abc\""] [⟨"insecure", "true"⟩] (by rfl)

/-- Evaluation for claim C8 at the failing input: the original line holds the
flag `y`; the request asks to add flags named `y`, `y`, `a`. The removal
loop mutates `flagsToAdd` while ranging over its original header (Go
`append` into the shared backing array), shifting the second `y` into an
index the loop has already passed, so that flag survives and
`"--y" "\"v2\""` is appended even though `y` already appears on the line —
contradicting the function's own contract of adding a flag only when not yet
present. -/
theorem updateCommandWithFlags_duplicate_added_flag :
    updateCommandWithFlags ⟨"up", [.cmdEl "up", .flagEl "y" false "v"]⟩
      [⟨"y", "v1"⟩, ⟨"y", "v2"⟩, ⟨"a", "v3"⟩] =
      some ["up", "--y", "\"v\"", "--y", "\"v2\"", "--a", "\"v3\""] := by
  rfl

/-- Evaluation for claim C10 at the failing input: `Apply` writes every
filter list through `getFilter`'s pointer to a copy of the slice element, so
after applying a persistent-storage resource with filter lists
`["/a"], ["v1"], ["v2"], ["d1"], ["d2"]` to the default configuration, every
read-back still returns the default (or empty) filter values instead of the
applied ones. -/
theorem ndmConfig_apply_roundtrip_fails :
    (DefaultNDMConfig.Apply ⟨["/a"], ["v1"], ["v2"], ["d1"], ["d2"]⟩) =
      DefaultNDMConfig ∧
    (DefaultNDMConfig.Apply ⟨["/a"], ["v1"], ["v2"], ["d1"], ["d2"]⟩).MountExcludes =
      ["/", "/etc/hosts", "/boot"] ∧
    (DefaultNDMConfig.Apply ⟨["/a"], ["v1"], ["v2"], ["d1"], ["d2"]⟩).MountExcludes ≠
      ["/a"] ∧
    (DefaultNDMConfig.Apply ⟨["/a"], ["v1"], ["v2"], ["d1"], ["d2"]⟩).VendorIncludes ≠
      ["v1"] ∧
    (DefaultNDMConfig.Apply ⟨["/a"], ["v1"], ["v2"], ["d1"], ["d2"]⟩).VendorExcludes ≠
      ["v2"] ∧
    (DefaultNDMConfig.Apply ⟨["/a"], ["v1"], ["v2"], ["d1"], ["d2"]⟩).DeviceIncludes ≠
      ["d1"] ∧
    (DefaultNDMConfig.Apply ⟨["/a"], ["v1"], ["v2"], ["d1"], ["d2"]⟩).DeviceExcludes ≠
      ["d2"] := by
  refine ⟨rfl, by decide, by decide, by decide, by decide, by decide, by decide⟩

end Gravity
